import Mathlib

/-!
# go_blog_app: cursor pagination, transactional writes and status mapping

A shallow embedding of `repository/article_repository.go` and
`handler/article_handler.go`.

* The MySQL `articles` table is a list of rows together with the
  AUTO_INCREMENT counter of its `id` column.
* Go's `int` is the 64-bit signed integer of the usual server platforms.
  IDs, cursors and timestamps are `Int`: the embedded code only compares and
  copies them. The arithmetic of `strconv` is that of `uint64`, written with
  an explicit `% 2 ^ 64`.
* Every call into the driver (`Select`, `MustBegin`, `Exec`, `NamedExec`,
  `Commit`) can fail; the failures of one call of a repository function are
  an explicit argument.
* Calls to the logger have no effect on the response or the table and are
  left out.
-/

namespace GoBlog

/-! ## Data model -/

/-- Modelled from the spec: the `model.Article` struct, whose declaration is
not part of the sources at hand. The fields are the ones the handlers and the
SQL text use (`ID`, `Created`, `Updated`, and the columns `title`, `body`).
Timestamps are instants on an integer clock. -/
structure Article where
  ID : Int
  Title : String
  Body : String
  Created : Int
  Updated : Int
  deriving DecidableEq, Repr

/-- An error value of the driver or of the request layer. -/
abbrev GoError := String

/-- The `articles` table: its rows and the next value of the AUTO_INCREMENT
`id` column. -/
structure DB where
  rows : List Article
  autoInc : Int
  deriving DecidableEq, Repr

/-- The primary-key constraint on `id`: no two rows share an ID. -/
def PrimaryKey (rows : List Article) : Prop := (rows.map Article.ID).Nodup

instance (rows : List Article) : Decidable (PrimaryKey rows) := by
  unfold PrimaryKey; infer_instance

/-- How a Go call ends: it returns a value, or it panics. -/
inductive Outcome (α : Type) where
  | returned : α → Outcome α
  | panicked : Outcome α
  deriving DecidableEq, Repr

/-- The driver failures of one repository call, one field per driver call
(`none`: that call succeeds). -/
structure Faults where
  begin : Option GoError
  exec : Option GoError
  commit : Option GoError
  deriving DecidableEq, Repr

/-- No driver call fails. -/
def noFaults : Faults := ⟨none, none, none⟩

/-! ## The SELECT of `ArticleListByCursor` -/

/-- Order of `ORDER BY id desc`: `a` may stand before `b`. -/
def idDesc (a b : Article) : Prop := b.ID ≤ a.ID

instance : DecidableRel idDesc := fun a b => inferInstanceAs (Decidable (b.ID ≤ a.ID))

instance : IsTotal Article idDesc := ⟨fun a b => by unfold idDesc; omega⟩

instance : IsTrans Article idDesc := ⟨fun a b c h₁ h₂ => by unfold idDesc at *; omega⟩

/-- `ORDER BY id desc` on a list of rows. -/
def orderByIdDesc (rows : List Article) : List Article := rows.insertionSort idDesc

/-- The query
`SELECT * FROM articles WHERE id < ? ORDER BY id desc LIMIT 10`. -/
def selectPage (rows : List Article) (bound : Int) : List Article :=
  (orderByIdDesc (rows.filter fun a => decide (a.ID < bound))).take 10

/-- Go's `math.MaxInt32`. -/
def MaxInt32 : Int := 2147483647

namespace repository

/-- `ArticleListByCursor` of `repository/article_repository.go`: a cursor
`<= 0` is replaced by `math.MaxInt32`, then the page is selected. `fault` is
the error of `db.Select`, if it fails. The result is Go's pair
`(articles, err)`, a nil slice being the empty list. -/
def ArticleListByCursor (fault : Option GoError) (db : DB) (cursor : Int) :
    List Article × Option GoError :=
  let cursor := if cursor ≤ 0 then MaxInt32 else cursor
  match fault with
  | some err => ([], some err)
  | none => (selectPage db.rows cursor, none)

end repository

/-- Go's `sql.Result` of an INSERT. -/
structure SqlResult where
  lastInsertId : Int
  rowsAffected : Int
  deriving DecidableEq, Repr

/-- The statement
`INSERT INTO articles (title, body, created, updated) VALUES (...)`
inside a transaction: the row gets the next AUTO_INCREMENT id. -/
def insertRow (db : DB) (article : Article) : DB :=
  { rows := db.rows ++ [{ article with ID := db.autoInc }]
    autoInc := db.autoInc + 1 }

/-- The statement `DELETE FROM articles WHERE id = ?` inside a transaction. -/
def deleteRow (db : DB) (id : Int) : DB :=
  { db with rows := db.rows.filter fun a => decide (a.ID ≠ id) }

namespace repository

/-- `ArticleCreate` of `repository/article_repository.go`. The article is
passed by pointer, so the stamped article is part of the result, next to Go's
pair `(res, err)`. `db.MustBegin()` panics when the transaction cannot be
begun; a failed `NamedExec` is rolled back and its error returned; the value
of `tx.Commit()` is discarded. A transaction that is rolled back, or whose
commit fails, leaves the table as it was. -/
def ArticleCreate (f : Faults) (now : Int) (article : Article) (db : DB) :
    Outcome (Article × Option SqlResult × Option GoError) × DB :=
  let article := { article with Created := now, Updated := now }
  match f.begin with
  | some _ => (Outcome.panicked, db)
  | none =>
    match f.exec with
    | some err => (Outcome.returned (article, none, some err), db)
    | none =>
      let tx := insertRow db article
      let res : SqlResult := ⟨db.autoInc, 1⟩
      match f.commit with
      | some _ => (Outcome.returned (article, some res, none), db)
      | none => (Outcome.returned (article, some res, none), tx)

/-- `ArticleDelete` of `repository/article_repository.go`: `MustBegin`, the
DELETE (rolled back and its error returned on failure), then
`return tx.Commit()`. -/
def ArticleDelete (f : Faults) (id : Int) (db : DB) : Outcome (Option GoError) × DB :=
  match f.begin with
  | some _ => (Outcome.panicked, db)
  | none =>
    match f.exec with
    | some err => (Outcome.returned (some err), db)
    | none =>
      let tx := deleteRow db id
      match f.commit with
      | some err => (Outcome.returned (some err), db)
      | none => (Outcome.returned none, tx)

end repository

/-! ## `strconv.Atoi` (Go standard library, 64-bit `int`) -/

/-- The two errors `strconv` reports. -/
inductive NumError where
  | ErrSyntax
  | ErrRange
  deriving DecidableEq, Repr

/-- UTF-8 encoding of one character, as bytes. -/
def utf8Bytes (c : Char) : List Nat :=
  let n := c.toNat
  if n < 0x80 then [n]
  else if n < 0x800 then [0xC0 + n / 0x40, 0x80 + n % 0x40]
  else if n < 0x10000 then [0xE0 + n / 0x1000, 0x80 + n / 0x40 % 0x40, 0x80 + n % 0x40]
  else [0xF0 + n / 0x40000, 0x80 + n / 0x1000 % 0x40, 0x80 + n / 0x40 % 0x40, 0x80 + n % 0x40]

/-- A Go string is its sequence of bytes. -/
def goBytes (s : String) : List Nat := s.toList.flatMap utf8Bytes

/-- Go's `maxUint64`. -/
def maxUint64 : Nat := 2 ^ 64 - 1

/-- The digit loop of `strconv.ParseUint(s, 10, 0)`: `cutoff` is
`maxUint64/10 + 1`, `maxVal` is `1<<64 - 1`; arithmetic is that of `uint64`.
A byte that is not a decimal digit (a letter is a digit `>= base`) is a
syntax error with value 0; an overflow is a range error with value `maxVal`,
reported as soon as it is met. -/
def parseUintLoop : List Nat → Nat → Nat × Option NumError
  | [], n => (n, none)
  | c :: cs, n =>
    if 48 ≤ c ∧ c ≤ 57 then
      let d := c - 48
      if n ≥ maxUint64 / 10 + 1 then (maxUint64, some NumError.ErrRange)
      else
        let n := n * 10 % 2 ^ 64
        let n1 := (n + d) % 2 ^ 64
        if n1 < n ∨ n1 > maxUint64 then (maxUint64, some NumError.ErrRange)
        else parseUintLoop cs n1
    else (0, some NumError.ErrSyntax)

/-- `strconv.ParseUint(s, 10, 0)`. -/
def ParseUint (s : List Nat) : Nat × Option NumError :=
  if s = [] then (0, some NumError.ErrSyntax) else parseUintLoop s 0

/-- `strconv.ParseInt(s, 10, 0)`: the sign is picked off, the rest parsed as
unsigned; a syntax error gives 0, a value out of range gives the integer of
largest magnitude of that sign together with a range error. -/
def ParseInt (s : List Nat) : Int × Option NumError :=
  if s = [] then (0, some NumError.ErrSyntax)
  else
    let neg := decide (s.head? = some 45)
    let s1 := if s.head? = some 43 ∨ s.head? = some 45 then s.tail else s
    match ParseUint s1 with
    | (_, some NumError.ErrSyntax) => (0, some NumError.ErrSyntax)
    | (un, _) =>
      let cutoff : Nat := 2 ^ 63
      if neg = false ∧ un ≥ cutoff then ((cutoff : Int) - 1, some NumError.ErrRange)
      else if neg = true ∧ un > cutoff then (-(cutoff : Int), some NumError.ErrRange)
      else (if neg then -(un : Int) else (un : Int), none)

/-- The digit loop of the fast path of `strconv.Atoi`: `ch -= '0'` on a byte,
a syntax error when the result exceeds 9. -/
def atoiFastLoop : List Nat → Int → Option Int
  | [], n => some n
  | ch :: cs, n =>
    let ch := (ch + 256 - 48) % 256
    if ch > 9 then none else atoiFastLoop cs (n * 10 + (ch : Int))

/-- `strconv.Atoi` for 64-bit `int`: strings of 1 to 18 bytes take the fast
path, all others go through `ParseInt(s, 10, 0)`. The result is Go's pair
`(value, err)`. -/
def Atoi (s : String) : Int × Option NumError :=
  let s0 := goBytes s
  let sLen := s0.length
  if 0 < sLen ∧ sLen < 19 then
    let signed := decide (s0.head? = some 45 ∨ s0.head? = some 43)
    let s1 := if signed then s0.tail else s0
    if signed = true ∧ s1.length < 1 then (0, some NumError.ErrSyntax)
    else
      match atoiFastLoop s1 0 with
      | none => (0, some NumError.ErrSyntax)
      | some n => (if s0.head? = some 45 then -n else n, none)
  else ParseInt s0

/-! ## Handlers -/

/-- An HTTP response: status code and body. -/
structure Response (β : Type) where
  status : Nat
  body : β
  deriving DecidableEq, Repr

/-- `ArticleCreateOutput` of `handler/article_handler.go`. -/
structure ArticleCreateOutput where
  Article : Option Article
  Message : String
  ValidationErrors : List String
  deriving DecidableEq, Repr

/-- The validation the handler calls: `c.Validate(&article)` and
`article.ValidationErrors(err)`. Both live outside the sources at hand and are
taken as given. -/
structure Validator where
  validate : Article → Option GoError
  messages : Article → GoError → List String

/-- The body of `ArticleIndex` handed to the template. -/
structure IndexData where
  Articles : List Article
  Cursor : Int
  deriving DecidableEq, Repr

/-- The body of `ArticleList`: the JSON string `""` or the JSON array. -/
inductive ListBody where
  | text : String → ListBody
  | articles : List Article → ListBody
  deriving DecidableEq, Repr

namespace handler

/-- The cursor `ArticleIndex` computes from a page: the ID of its last
article, and 0 for an empty page (`var cursor int`). -/
def nextCursor (articles : List Article) : Int :=
  match articles.getLast? with
  | none => 0
  | some a => a.ID

/-- `ArticleIndex` of `handler/article_handler.go` on the path `/`: the page
from cursor 0 and the cursor after it; rendering is left to the template.
`none` stands for the body-less response. -/
def ArticleIndex (fault : Option GoError) (db : DB) : Response (Option IndexData) :=
  match repository.ArticleListByCursor fault db 0 with
  | (_, some _) => ⟨500, none⟩
  | (articles, none) => ⟨200, some ⟨articles, nextCursor articles⟩⟩

/-- `ArticleCreate` of `handler/article_handler.go`. `bound` is what
`c.Bind(&article)` makes of the request body. A panic of the repository call,
or of `res.LastInsertId()` on a nil result, passes through the handler. -/
def ArticleCreate (v : Validator) (bound : Except GoError Article) (f : Faults) (now : Int)
    (db : DB) : Outcome (Response ArticleCreateOutput) × DB :=
  let out : ArticleCreateOutput := ⟨none, "", []⟩
  match bound with
  | Except.error _ => (Outcome.returned ⟨400, out⟩, db)
  | Except.ok article =>
    match v.validate article with
    | some err =>
      (Outcome.returned ⟨422, { out with ValidationErrors := v.messages article err }⟩, db)
    | none =>
      match repository.ArticleCreate f now article db with
      | (Outcome.panicked, db1) => (Outcome.panicked, db1)
      | (Outcome.returned (_, _, some _), db1) => (Outcome.returned ⟨500, out⟩, db1)
      | (Outcome.returned (_, none, none), db1) => (Outcome.panicked, db1)
      | (Outcome.returned (article, some res, none), db1) =>
        (Outcome.returned
          ⟨200, { out with Article := some { article with ID := res.lastInsertId } }⟩, db1)

/-- The cursor `ArticleList` passes to the repository:
`cursor, _ := strconv.Atoi(c.QueryParam("cursor"))`, where `QueryParam` gives
the empty string for an absent parameter. -/
def listCursor (cursorParam : Option String) : Int :=
  (Atoi (cursorParam.getD "")).1

/-- `ArticleList` of `handler/article_handler.go`. -/
def ArticleList (cursorParam : Option String) (fault : Option GoError) (db : DB) :
    Response ListBody :=
  match repository.ArticleListByCursor fault db (listCursor cursorParam) with
  | (_, some _) => ⟨500, ListBody.text ""⟩
  | (articles, none) => ⟨200, ListBody.articles articles⟩

end handler

/-! ## Pagination traversal -/

/-- The traversal of the whole list by a client: fetch the page at the
cursor; stop at an empty page, otherwise go on from the ID of the page's last
article. `fuel` bounds the number of fetches; `none` means the bound was
reached before an empty page. No driver call fails. -/
def traverse : Nat → DB → Int → Option (List (List Article))
  | 0, _, _ => none
  | fuel + 1, db, cursor =>
    let page := (repository.ArticleListByCursor none db cursor).1
    if page.isEmpty then some []
    else (traverse fuel db (handler.nextCursor page)).map fun pages => page :: pages

/-- The listing with no ID bound at all:
`SELECT * FROM articles ORDER BY id desc LIMIT 10`. -/
def listUnbounded (rows : List Article) : List Article := (orderByIdDesc rows).take 10

/-! ## Reachable tables -/

/-- The empty table of a fresh schema. -/
def emptyDB : DB := ⟨[], 1⟩

/-- The tables reached from the empty table by calls of `ArticleCreate` and
`ArticleDelete`, whatever their arguments and driver failures. -/
inductive Reachable : DB → Prop where
  | empty : Reachable emptyDB
  | create (f : Faults) (now : Int) (a : Article) {db : DB} :
      Reachable db → Reachable (repository.ArticleCreate f now a db).2
  | delete (f : Faults) (id : Int) {db : DB} :
      Reachable db → Reachable (repository.ArticleDelete f id db).2

/-! ## Strict order on IDs -/

/-- Strictly descending IDs. -/
def idGt (a b : Article) : Prop := b.ID < a.ID

instance : DecidableRel idGt := fun a b => inferInstanceAs (Decidable (b.ID < a.ID))

instance : IsAntisymm Article idGt := ⟨fun a b h₁ h₂ => by unfold idGt at *; omega⟩

/-! ## Concrete tables and requests -/

/-- An article with the given ID, title and body, created at instant 0. -/
def mkArticle (id : Int) (title body : String) : Article := ⟨id, title, body, 0, 0⟩

/-- A table of three articles. -/
def threeDB : DB := ⟨[mkArticle 1 "a" "x", mkArticle 3 "c" "z", mkArticle 2 "b" "y"], 4⟩

/-- A table whose only article has ID `math.MaxInt32`. -/
def maxDB : DB := ⟨[mkArticle 2147483647 "a" "x"], 2147483648⟩

/-- Modelled from the spec: the fields of an article that break the rule set
"Title required non-empty; Body required non-empty". The validation tags of
`model.Article` are not part of the sources at hand. -/
def offendingFields (a : Article) : List String :=
  (if a.Title = "" then ["Title"] else []) ++ (if a.Body = "" then ["Body"] else [])

/-- Modelled from the spec: the validator with the rule set above, which
yields "a list of human-readable messages, one per offending field"; a
message is stood for by the name of its field. `model.Article` and its method
`ValidationErrors` are not part of the sources at hand. -/
def specValidator : Validator where
  validate := fun a => if offendingFields a = [] then none else some "validation failed"
  messages := fun a _ => offendingFields a

/-! ## Facts about the SELECT -/


theorem orderByIdDesc_perm (rows : List Article) : (orderByIdDesc rows).Perm rows :=
  List.perm_insertionSort idDesc rows

theorem orderByIdDesc_sorted (rows : List Article) : (orderByIdDesc rows).Sorted idDesc :=
  List.sorted_insertionSort idDesc rows

theorem primaryKey_iff_pairwise (rows : List Article) :
    PrimaryKey rows ↔ rows.Pairwise (fun a b => a.ID ≠ b.ID) := by
  unfold PrimaryKey List.Nodup
  exact List.pairwise_map

theorem primaryKey_perm {l₁ l₂ : List Article} (h : l₁.Perm l₂) (hk : PrimaryKey l₁) :
    PrimaryKey l₂ :=
  ((h.map Article.ID).nodup_iff).1 hk

theorem primaryKey_sublist {l₁ l₂ : List Article} (h : l₁.Sublist l₂) (hk : PrimaryKey l₂) :
    PrimaryKey l₁ :=
  List.Nodup.sublist (h.map Article.ID) hk

theorem primaryKey_filter {l : List Article} (p : Article → Bool) (hk : PrimaryKey l) :
    PrimaryKey (l.filter p) :=
  primaryKey_sublist (List.filter_sublist l) hk

/-- Under the primary key, a list sorted by `ORDER BY id desc` is strictly
descending. -/
theorem sorted_idGt_of_sorted {l : List Article} (hs : l.Sorted idDesc) (hk : PrimaryKey l) :
    l.Sorted idGt := by
  have hk' := (primaryKey_iff_pairwise l).1 hk
  have := List.Pairwise.and hs hk'
  refine List.Pairwise.imp ?_ this
  intro a b h
  unfold idDesc at h; unfold idGt
  omega

theorem orderByIdDesc_strict {rows : List Article} (hk : PrimaryKey rows) :
    (orderByIdDesc rows).Sorted idGt :=
  sorted_idGt_of_sorted (orderByIdDesc_sorted rows)
    (primaryKey_perm (orderByIdDesc_perm rows).symm hk)

theorem mem_selectPage {rows : List Article} {bound : Int} {a : Article}
    (h : a ∈ selectPage rows bound) : a ∈ rows ∧ a.ID < bound := by
  unfold selectPage at h
  have h1 := List.mem_of_mem_take h
  have h2 := (orderByIdDesc_perm _).mem_iff.1 h1
  simpa using h2

theorem length_selectPage (rows : List Article) (bound : Int) :
    (selectPage rows bound).length =
      min 10 (rows.countP fun a => decide (a.ID < bound)) := by
  unfold selectPage
  rw [List.length_take, (orderByIdDesc_perm _).length_eq, List.countP_eq_length_filter]

theorem selectPage_strict {rows : List Article} (hk : PrimaryKey rows) (bound : Int) :
    (selectPage rows bound).Sorted idGt := by
  unfold selectPage
  exact List.Pairwise.sublist (List.take_sublist _ _)
    (orderByIdDesc_strict (primaryKey_filter _ hk))

/-- A row below the bound that is not on the page has a smaller ID than
every row on the page. -/
theorem selectPage_largest {rows : List Article} (hk : PrimaryKey rows) (bound : Int)
    {a b : Article} (ha : a ∈ selectPage rows bound) (hb : b ∈ rows) (hlt : b.ID < bound)
    (hnot : b ∉ selectPage rows bound) : b.ID < a.ID := by
  unfold selectPage at ha hnot
  have hs := orderByIdDesc_strict (primaryKey_filter (fun a => decide (a.ID < bound)) hk)
  have hmem : b ∈ orderByIdDesc (rows.filter fun a => decide (a.ID < bound)) := by
    apply (orderByIdDesc_perm _).mem_iff.2
    simp [hb, hlt]
  have hdrop : b ∈ (orderByIdDesc (rows.filter fun a => decide (a.ID < bound))).drop 10 := by
    have := List.take_append_drop 10 (orderByIdDesc (rows.filter fun a => decide (a.ID < bound)))
    rw [← this] at hmem
    rcases List.mem_append.1 hmem with h | h
    · exact absurd h hnot
    · exact h
  exact List.Sorted.rel_of_mem_take_of_mem_drop hs ha hdrop

/-! ## Reachable tables -/

theorem ArticleCreate_table (f : Faults) (now : Int) (a : Article) (db : DB) :
    (repository.ArticleCreate f now a db).2 = db ∨
    (repository.ArticleCreate f now a db).2 =
      ⟨db.rows ++ [{ a with ID := db.autoInc, Created := now, Updated := now }],
        db.autoInc + 1⟩ := by
  rcases f with ⟨_ | b, _ | e, _ | m⟩ <;>
    simp [repository.ArticleCreate, insertRow]

theorem ArticleDelete_table (f : Faults) (id : Int) (db : DB) :
    (repository.ArticleDelete f id db).2 = db ∨
    (repository.ArticleDelete f id db).2 =
      ⟨db.rows.filter (fun a => decide (a.ID ≠ id)), db.autoInc⟩ := by
  rcases f with ⟨_ | b, _ | e, _ | m⟩ <;>
    simp [repository.ArticleDelete, deleteRow]

/-- In a table reached from the empty one, every ID is at least 1 and below
the AUTO_INCREMENT counter, and the primary key holds. -/
theorem reachable_ids {db : DB} (h : Reachable db) :
    (∀ a ∈ db.rows, 1 ≤ a.ID ∧ a.ID < db.autoInc) ∧ PrimaryKey db.rows ∧ 1 ≤ db.autoInc := by
  induction h with
  | empty => exact ⟨fun a ha => by simp [emptyDB] at ha, by simp [emptyDB, PrimaryKey], le_refl 1⟩
  | @create f now a db _ ih =>
    obtain ⟨hids, hk, hc⟩ := ih
    rcases ArticleCreate_table f now a db with h | h
    · rw [h]; exact ⟨hids, hk, hc⟩
    · rw [h]
      refine ⟨?_, ?_, by show 1 ≤ db.autoInc + 1; omega⟩
      · intro r hr
        rcases List.mem_append.1 hr with h1 | h1
        · have := hids r h1
          exact ⟨this.1, by show r.ID < db.autoInc + 1; omega⟩
        · rw [List.mem_singleton.1 h1]
          exact ⟨hc, by show db.autoInc < db.autoInc + 1; omega⟩
      · unfold PrimaryKey at hk ⊢
        show (List.map Article.ID (db.rows ++ [_])).Nodup
        rw [List.map_append, List.nodup_append]
        refine ⟨hk, by simp, ?_⟩
        intro i hi hi'
        obtain ⟨r, hr, rfl⟩ := List.mem_map.1 hi
        have h1 := (hids r hr).2
        simp at hi'
        omega
  | @delete f id db _ ih =>
    obtain ⟨hids, hk, hc⟩ := ih
    rcases ArticleDelete_table f id db with h | h
    · rw [h]; exact ⟨hids, hk, hc⟩
    · rw [h]
      exact ⟨fun r hr => hids r (List.mem_of_mem_filter hr), primaryKey_filter _ hk, hc⟩

/-- The empty table with any counter from 1 on is reached by creating and
deleting articles. -/
theorem reachable_empty_counter (n : Nat) : Reachable ⟨[], (n : Int) + 1⟩ := by
  induction n with
  | zero => exact Reachable.empty
  | succ n ih =>
    have h := Reachable.delete noFaults ((n : Int) + 1)
      (Reachable.create noFaults 0 (mkArticle 0 "a" "x") ih)
    have e : (repository.ArticleDelete noFaults ((n : Int) + 1)
        (repository.ArticleCreate noFaults 0 (mkArticle 0 "a" "x")
          ⟨[], (n : Int) + 1⟩).2).2 = ⟨[], ((n + 1 : Nat) : Int) + 1⟩ := by
      simp [repository.ArticleDelete, repository.ArticleCreate, noFaults, insertRow, deleteRow]
    rw [e] at h
    exact h

/-- The table whose only article has ID `math.MaxInt32` is reached from the
empty table by calls of `ArticleCreate` and `ArticleDelete`. -/
theorem reachable_maxDB : Reachable maxDB := by
  have h := Reachable.create noFaults 0 (mkArticle 0 "a" "x") (reachable_empty_counter 2147483646)
  have e : (repository.ArticleCreate noFaults 0 (mkArticle 0 "a" "x")
      ⟨[], ((2147483646 : Nat) : Int) + 1⟩).2 = maxDB := by
    simp [repository.ArticleCreate, noFaults, insertRow, maxDB, mkArticle]
  rw [e] at h
  exact h

/-! ## C1 -/

/-- C1: for every table (rows obeying the primary key) and every cursor
`c > 0`, `ArticleListByCursor(c)`, when `db.Select` does not fail, returns,
with a nil error, a page of exactly
`min(10, number of rows with ID < c)` rows, each a stored row with `ID < c`,
in strictly descending ID order, and every stored row with `ID < c` that is
not on the page has a smaller ID than all rows on it. -/
theorem ArticleListByCursor_positive_cursor (db : DB) (c : Int)
    (hk : PrimaryKey db.rows) (hc : 0 < c) :
    ∃ page, repository.ArticleListByCursor none db c = (page, none) ∧
      page.length = min 10 (db.rows.countP fun a => decide (a.ID < c)) ∧
      (∀ a ∈ page, a ∈ db.rows ∧ a.ID < c) ∧
      page.Pairwise (fun a b => b.ID < a.ID) ∧
      (∀ a ∈ page, ∀ b ∈ db.rows, b.ID < c → b ∉ page → b.ID < a.ID) := by
  refine ⟨selectPage db.rows c, ?_, length_selectPage _ _, fun a ha => mem_selectPage ha,
    selectPage_strict hk c, fun a ha b hb hlt hnot => selectPage_largest hk c ha hb hlt hnot⟩
  unfold repository.ArticleListByCursor
  simp [not_le.2 hc]

/-- The witness of C1: the page of the three-article table at cursor 3. -/
theorem ArticleListByCursor_positive_cursor_witness :
    PrimaryKey threeDB.rows ∧ (0 : Int) < 3 ∧
    ∃ page, repository.ArticleListByCursor none threeDB 3 = (page, none) ∧
      page.length = min 10 (threeDB.rows.countP fun a => decide (a.ID < 3)) ∧
      (∀ a ∈ page, a ∈ threeDB.rows ∧ a.ID < 3) ∧
      page.Pairwise (fun a b => b.ID < a.ID) ∧
      (∀ a ∈ page, ∀ b ∈ threeDB.rows, b.ID < 3 → b ∉ page → b.ID < a.ID) :=
  ⟨by decide, by decide, ArticleListByCursor_positive_cursor threeDB 3 (by decide) (by decide)⟩

/-! ## C2 -/

/-- C2: at cursor 0 the article with ID `math.MaxInt32` is not listed, while
the listing with no ID bound returns it: the bound `id < math.MaxInt32` that
stands in for "no bound" excludes every ID from `math.MaxInt32` upwards. -/
theorem ArticleListByCursor_zero_misses_MaxInt32 :
    repository.ArticleListByCursor none maxDB 0 = ([], none) ∧
    listUnbounded maxDB.rows = [mkArticle 2147483647 "a" "x"] := by
  constructor <;> decide

/-- Over a table whose IDs are all below `math.MaxInt32`, a cursor `<= 0`
does give the page of the listing with no ID bound. -/
theorem ArticleListByCursor_nonpositive_small_ids (db : DB) (c : Int) (hc : c ≤ 0)
    (hid : ∀ a ∈ db.rows, a.ID < MaxInt32) :
    repository.ArticleListByCursor none db c = (listUnbounded db.rows, none) := by
  have hall : (db.rows.filter fun a => decide (a.ID < MaxInt32)) = db.rows := by
    rw [List.filter_eq_self]
    intro a ha
    simpa using hid a ha
  unfold repository.ArticleListByCursor
  simp [hc, selectPage, listUnbounded, hall]

/-! ## C3 -/

theorem ArticleListByCursor_nonpositive (fault : Option GoError) (db : DB) (c : Int)
    (hc : c ≤ 0) :
    repository.ArticleListByCursor fault db c =
      repository.ArticleListByCursor fault db MaxInt32 := by
  unfold repository.ArticleListByCursor
  simp [hc, MaxInt32]

theorem traverse_nonpositive (fuel : Nat) (db : DB) (c : Int) (hc : c ≤ 0) :
    traverse fuel db c = traverse fuel db MaxInt32 := by
  cases fuel with
  | zero => rfl
  | succ n => simp only [traverse, ArticleListByCursor_nonpositive none db c hc]

/-- Two strictly descending lists with the same rows are the same list. -/
theorem eq_of_perm_of_strict {l₁ l₂ : List Article} (hp : l₁.Perm l₂)
    (h₁ : l₁.Sorted idGt) (h₂ : l₂.Sorted idGt) : l₁ = l₂ :=
  List.eq_of_perm_of_sorted hp h₁ h₂

/-- In a strictly descending list `p ++ q`, the rows below the ID of the last
row of `p` are exactly `q`. -/
theorem filter_below_last {p q : List Article} {x : Article}
    (hs : (p ++ q).Sorted idGt) (hx : p.getLast? = some x) :
    (p ++ q).filter (fun a => decide (a.ID < x.ID)) = q := by
  obtain ⟨ys, rfl⟩ := List.getLast?_eq_some_iff.1 hx
  obtain ⟨hp, _, hpq⟩ := List.pairwise_append.1 hs
  obtain ⟨_, _, hyx⟩ := List.pairwise_append.1 hp
  rw [List.filter_append]
  have h1 : (ys ++ [x]).filter (fun a => decide (a.ID < x.ID)) = [] := by
    rw [List.filter_eq_nil_iff]
    intro a ha
    rcases List.mem_append.1 ha with h | h
    · have := hyx a h x (List.mem_singleton.2 rfl)
      unfold idGt at this
      simp; omega
    · rw [List.mem_singleton.1 h]; simp
  have h2 : q.filter (fun a => decide (a.ID < x.ID)) = q := by
    rw [List.filter_eq_self]
    intro a ha
    have := hpq x (List.mem_append.2 (Or.inr (List.mem_singleton.2 rfl))) a ha
    unfold idGt at this
    simpa using this
  rw [h1, h2, List.nil_append]

/-- The rows after a non-empty page are the rows below the ID of the page's
last row, in descending order. -/
theorem orderByIdDesc_below_last {rows : List Article} (hk : PrimaryKey rows) (c : Int)
    {x : Article} (hx : (selectPage rows c).getLast? = some x) :
    orderByIdDesc (rows.filter fun a => decide (a.ID < x.ID)) =
      (orderByIdDesc (rows.filter fun a => decide (a.ID < c))).drop 10 := by
  have hs := orderByIdDesc_strict (primaryKey_filter (fun a => decide (a.ID < c)) hk)
  have hxc : x.ID < c := (mem_selectPage (List.mem_of_mem_getLast? hx)).2
  unfold selectPage at hx
  have hsplit := List.take_append_drop 10 (orderByIdDesc (rows.filter fun a => decide (a.ID < c)))
  have hdrop : (orderByIdDesc (rows.filter fun a => decide (a.ID < c))).filter
      (fun a => decide (a.ID < x.ID)) =
      (orderByIdDesc (rows.filter fun a => decide (a.ID < c))).drop 10 := by
    have := filter_below_last (hsplit.symm ▸ hs) hx
    rwa [hsplit] at this
  have hff : (rows.filter fun a => decide (a.ID < c)).filter (fun a => decide (a.ID < x.ID)) =
      rows.filter fun a => decide (a.ID < x.ID) := by
    rw [List.filter_filter]
    apply List.filter_congr
    intro a _
    by_cases h : a.ID < x.ID
    · have : a.ID < c := by omega
      simp [h, this]
    · simp [h]
  apply eq_of_perm_of_strict
  · refine (orderByIdDesc_perm _).trans ?_
    rw [← hdrop, ← hff]
    exact ((orderByIdDesc_perm _).filter _).symm
  · exact orderByIdDesc_strict (primaryKey_filter _ hk)
  · exact List.Pairwise.sublist (List.drop_sublist _ _) hs

/-- From a positive cursor, over a table with positive IDs, the traversal stops
within one fetch more than there are rows below the cursor, and its pages put
together are those rows in descending order. -/
theorem traverse_from_positive (db : DB) (hk : PrimaryKey db.rows)
    (hpos : ∀ a ∈ db.rows, 0 < a.ID) :
    ∀ (n : Nat) (c : Int), 0 < c →
      (db.rows.filter fun a => decide (a.ID < c)).length ≤ n →
      ∃ pages, traverse (n + 1) db c = some pages ∧
        pages.flatten = orderByIdDesc (db.rows.filter fun a => decide (a.ID < c)) := by
  intro n
  induction n with
  | zero =>
    intro c hc hlen
    have hnil : (db.rows.filter fun a => decide (a.ID < c)) = [] :=
      List.length_eq_zero.1 (Nat.le_zero.1 hlen)
    refine ⟨[], ?_, ?_⟩
    · simp [traverse, repository.ArticleListByCursor, not_le.2 hc, selectPage, hnil,
        orderByIdDesc]
    · simp [hnil, orderByIdDesc]
  | succ n ih =>
    intro c hc hlen
    have hpage : (repository.ArticleListByCursor none db c).1 = selectPage db.rows c := by
      simp [repository.ArticleListByCursor, not_le.2 hc]
    cases hlast : (selectPage db.rows c).getLast? with
    | none =>
      have hempty : selectPage db.rows c = [] := List.getLast?_eq_none_iff.1 hlast
      refine ⟨[], ?_, ?_⟩
      · rw [traverse]
        simp [hpage, hempty]
      · have h0 := hempty
        unfold selectPage at h0
        rcases List.take_eq_nil_iff.1 h0 with h | h
        · omega
        · simp [h]
    | some x =>
      have hne : selectPage db.rows c ≠ [] := by
        intro h; rw [h] at hlast; simp at hlast
      have hxmem := mem_selectPage (List.mem_of_mem_getLast? hlast)
      have hxpos : 0 < x.ID := hpos x hxmem.1
      have hrest := orderByIdDesc_below_last hk c hlast
      have hlen' : (db.rows.filter fun a => decide (a.ID < x.ID)).length ≤ n := by
        have h1 : (orderByIdDesc (db.rows.filter fun a => decide (a.ID < x.ID))).length =
            (db.rows.filter fun a => decide (a.ID < x.ID)).length :=
          (orderByIdDesc_perm _).length_eq
        have h2 : (orderByIdDesc (db.rows.filter fun a => decide (a.ID < c))).length =
            (db.rows.filter fun a => decide (a.ID < c)).length :=
          (orderByIdDesc_perm _).length_eq
        have h3 : 0 < (orderByIdDesc (db.rows.filter fun a => decide (a.ID < c))).length := by
          rcases Nat.eq_zero_or_pos
            (orderByIdDesc (db.rows.filter fun a => decide (a.ID < c))).length with h | h
          · exfalso
            apply hne
            unfold selectPage
            rw [List.length_eq_zero.1 h]; rfl
          · exact h
        rw [hrest, List.length_drop] at h1
        omega
      obtain ⟨pages, hpages, hflat⟩ := ih x.ID hxpos hlen'
      refine ⟨selectPage db.rows c :: pages, ?_, ?_⟩
      · rw [traverse]
        have hnc : handler.nextCursor (selectPage db.rows c) = x.ID := by
          simp [handler.nextCursor, hlast]
        simp [hpage, hne, hnc, hpages]
      · rw [List.flatten_cons, hflat, hrest]
        unfold selectPage
        exact List.take_append_drop 10 _

/-- Over a table that obeys the primary key and whose IDs are all positive and
below `math.MaxInt32`, the traversal from cursor 0 stops within one fetch more
than there are rows, and the pages put together hold every stored article
exactly once, in strictly descending ID order. -/
theorem traverse_complete (db : DB) (hk : PrimaryKey db.rows)
    (hid : ∀ a ∈ db.rows, 0 < a.ID ∧ a.ID < MaxInt32) :
    ∃ pages, traverse (db.rows.length + 1) db 0 = some pages ∧
      pages.flatten.Perm db.rows ∧
      pages.flatten.Pairwise (fun a b => b.ID < a.ID) := by
  have hall : (db.rows.filter fun a => decide (a.ID < MaxInt32)) = db.rows := by
    rw [List.filter_eq_self]
    intro a ha
    simpa using (hid a ha).2
  obtain ⟨pages, hpages, hflat⟩ :=
    traverse_from_positive db hk (fun a ha => (hid a ha).1) db.rows.length MaxInt32
      (by decide) (by rw [hall])
  rw [hall] at hflat
  refine ⟨pages, ?_, ?_, ?_⟩
  · rw [traverse_nonpositive _ db 0 (le_refl 0)]
    exact hpages
  · rw [hflat]
    exact orderByIdDesc_perm _
  · rw [hflat]
    exact orderByIdDesc_strict hk

/-- Over every table reached from the empty one whose IDs are all below
`math.MaxInt32`, the traversal from cursor 0 stops and lists every stored
article exactly once, in strictly descending ID order. -/
theorem traverse_complete_reachable (db : DB) (h : Reachable db)
    (hid : ∀ a ∈ db.rows, a.ID < MaxInt32) :
    ∃ pages, traverse (db.rows.length + 1) db 0 = some pages ∧
      pages.flatten.Perm db.rows ∧
      pages.flatten.Pairwise (fun a b => b.ID < a.ID) := by
  obtain ⟨hids, hk, _⟩ := reachable_ids h
  refine traverse_complete db hk ?_
  intro a ha
  have := (hids a ha).1
  exact ⟨by omega, hid a ha⟩

/-- C3: over the table whose only article has ID `math.MaxInt32`, a table
reached from the empty one by `ArticleCreate` and `ArticleDelete`, the
traversal from cursor 0 stops at its first fetch with no page at all: the
stored article is on none of the returned pages. -/
theorem traverse_misses_MaxInt32 :
    Reachable maxDB ∧
    maxDB.rows = [mkArticle 2147483647 "a" "x"] ∧
    (repository.ArticleListByCursor none maxDB 0).1 = [] ∧
    ∀ fuel, traverse (fuel + 1) maxDB 0 = some [] := by
  refine ⟨reachable_maxDB, rfl, by decide, ?_⟩
  intro fuel
  have hpage : (repository.ArticleListByCursor none maxDB 0).1 = [] := by decide
  rw [traverse]
  simp [hpage]

/-! ## C4 -/

theorem selectPage_insert_above {l₁ l₂ : List Article} {a : Article} {c : Int}
    (ha : c ≤ a.ID) : selectPage (l₁ ++ a :: l₂) c = selectPage (l₁ ++ l₂) c := by
  unfold selectPage
  have : ¬ a.ID < c := by omega
  simp [List.filter_append, List.filter_cons, this]

/-- C4: for every cursor `c > 0`, a row with `ID >= c` inserted anywhere into
the table leaves the result of `ArticleListByCursor(c)` as it was; and so does
a call of `ArticleCreate`, whatever its outcome, when `c` does not exceed the
next AUTO_INCREMENT id (as every ID handed out before does not). -/
theorem ArticleListByCursor_insert_above_cursor (db : DB) (c : Int) (hc : 0 < c) :
    (∀ (fault : Option GoError) (l₁ l₂ : List Article) (a : Article) (n : Int),
      db.rows = l₁ ++ l₂ → c ≤ a.ID →
      repository.ArticleListByCursor fault ⟨l₁ ++ a :: l₂, n⟩ c =
        repository.ArticleListByCursor fault db c) ∧
    (∀ (fault : Option GoError) (f : Faults) (now : Int) (a : Article),
      c ≤ db.autoInc →
      repository.ArticleListByCursor fault (repository.ArticleCreate f now a db).2 c =
        repository.ArticleListByCursor fault db c) := by
  constructor
  · intro fault l₁ l₂ a n hrows ha
    unfold repository.ArticleListByCursor
    simp only [not_le.2 hc, if_false, hrows]
    cases fault with
    | some e => rfl
    | none => simp only [selectPage_insert_above ha]
  · intro fault f now a ha
    have hins : repository.ArticleListByCursor fault
        (insertRow db { a with Created := now, Updated := now }) c =
        repository.ArticleListByCursor fault db c := by
      unfold repository.ArticleListByCursor insertRow
      simp only [not_le.2 hc, if_false]
      cases fault with
      | some e => rfl
      | none =>
        have h := @selectPage_insert_above db.rows []
          { ID := db.autoInc, Title := a.Title, Body := a.Body, Created := now, Updated := now }
          c ha
        simp only [List.append_nil] at h
        simp only [h]
    unfold repository.ArticleCreate
    rcases f with ⟨_ | b, _ | e, _ | m⟩ <;> first | rfl | exact hins

/-- The witness of C4: creating an article in the three-article table leaves
the page at cursor 3 as it was. -/
theorem ArticleListByCursor_insert_above_cursor_witness :
    (0 : Int) < 3 ∧ (3 : Int) ≤ threeDB.autoInc ∧
    repository.ArticleListByCursor none
      (repository.ArticleCreate noFaults 7 (mkArticle 0 "d" "w") threeDB).2 3 =
        repository.ArticleListByCursor none threeDB 3 :=
  ⟨by decide, by decide,
    (ArticleListByCursor_insert_above_cursor threeDB 3 (by decide)).2 none noFaults 7
      (mkArticle 0 "d" "w") (by decide)⟩

/-! ## C5 -/

/-- C5 (amended): when the INSERT fails, `ArticleCreate` returns that error
and the table is as before; when the transaction cannot be begun it panics and
the table is as before; when no driver call fails it returns the result with
a nil error and the table has gained the stamped row under the next id. -/
theorem ArticleCreate_failure_handling (f : Faults) (now : Int) (a : Article) (db : DB) :
    (∀ e, f.begin = none → f.exec = some e →
      repository.ArticleCreate f now a db =
        (Outcome.returned ({ a with Created := now, Updated := now }, none, some e), db)) ∧
    (∀ e, f.begin = some e → repository.ArticleCreate f now a db = (Outcome.panicked, db)) ∧
    (f = noFaults →
      repository.ArticleCreate f now a db =
        (Outcome.returned
          ({ a with Created := now, Updated := now }, some ⟨db.autoInc, 1⟩, none),
         ⟨db.rows ++ [{ a with ID := db.autoInc, Created := now, Updated := now }],
          db.autoInc + 1⟩)) := by
  refine ⟨?_, ?_, ?_⟩
  · intro e hb he
    simp [repository.ArticleCreate, hb, he]
  · intro e hb
    simp [repository.ArticleCreate, hb]
  · intro hf
    subst hf
    simp [repository.ArticleCreate, noFaults, insertRow]

/-- The witness of C5: a failing INSERT on the three-article table. -/
theorem ArticleCreate_failure_handling_witness :
    repository.ArticleCreate ⟨none, some "duplicate", none⟩ 7 (mkArticle 0 "d" "w") threeDB =
      (Outcome.returned ({ mkArticle 0 "d" "w" with Created := 7, Updated := 7 }, none,
        some "duplicate"), threeDB) :=
  (ArticleCreate_failure_handling ⟨none, some "duplicate", none⟩ 7 (mkArticle 0 "d" "w")
    threeDB).1 "duplicate" rfl rfl

/-- The counterexample of C5: when the transaction cannot be begun,
`ArticleCreate` does not return an error to its caller, it panics. -/
theorem ArticleCreate_begin_failure_panics :
    repository.ArticleCreate ⟨some "bad connection", none, none⟩ 7 (mkArticle 0 "d" "w")
        emptyDB = (Outcome.panicked, emptyDB) ∧
    ¬ ∃ art res err,
      (repository.ArticleCreate ⟨some "bad connection", none, none⟩ 7 (mkArticle 0 "d" "w")
        emptyDB).1 = Outcome.returned (art, res, some err) := by
  refine ⟨rfl, ?_⟩
  rintro ⟨art, res, err, h⟩
  exact Outcome.noConfusion h

/-- A failed commit in `ArticleCreate`: the result comes back with a nil error
although the table has not gained the row, while `ArticleDelete` returns the
error of its failed commit. -/
theorem ArticleCreate_commit_failure_unreported :
    repository.ArticleCreate ⟨none, none, some "connection lost"⟩ 7 (mkArticle 0 "d" "w")
        emptyDB =
      (Outcome.returned ({ mkArticle 0 "d" "w" with Created := 7, Updated := 7 },
        some ⟨1, 1⟩, none), emptyDB) ∧
    repository.ArticleDelete ⟨none, none, some "connection lost"⟩ 1 threeDB =
      (Outcome.returned (some "connection lost"), threeDB) :=
  ⟨rfl, rfl⟩

/-! ## C6 -/

/-- C6: absent a driver failure, `ArticleDelete(id)` on a table without a row
of that id returns a nil error and leaves the table as it was; and of two
consecutive calls both return a nil error, the first leaving exactly the rows
whose ID differs from `id`, in their order, the second changing nothing. -/
theorem ArticleDelete_idempotent (db : DB) (id : Int) :
    ((∀ a ∈ db.rows, a.ID ≠ id) →
      repository.ArticleDelete noFaults id db = (Outcome.returned none, db)) ∧
    repository.ArticleDelete noFaults id db =
      (Outcome.returned none,
        ⟨db.rows.filter (fun a => decide (a.ID ≠ id)), db.autoInc⟩) ∧
    repository.ArticleDelete noFaults id (repository.ArticleDelete noFaults id db).2 =
      (Outcome.returned none, (repository.ArticleDelete noFaults id db).2) := by
  have hdel : ∀ d : DB, repository.ArticleDelete noFaults id d =
      (Outcome.returned none, ⟨d.rows.filter (fun a => decide (a.ID ≠ id)), d.autoInc⟩) := by
    intro d; rfl
  refine ⟨?_, hdel db, ?_⟩
  · intro h
    rw [hdel db]
    have : db.rows.filter (fun a => decide (a.ID ≠ id)) = db.rows := by
      rw [List.filter_eq_self]
      intro a ha
      simpa using h a ha
    rw [this]
  · rw [hdel db, hdel]
    simp [List.filter_filter]

/-- The witness of C6: deleting the absent id 5 from the three-article
table. -/
theorem ArticleDelete_idempotent_witness :
    (∀ a ∈ threeDB.rows, a.ID ≠ 5) ∧
    repository.ArticleDelete noFaults 5 threeDB = (Outcome.returned none, threeDB) :=
  ⟨by decide, (ArticleDelete_idempotent threeDB 5).1 (by decide)⟩

/-! ## C7 -/

/-- C7 (amended): the status of the `ArticleCreate` handler is that of the
first stage that fails: 400 when binding fails; otherwise 422 with the
validation messages when validation fails; otherwise 500 with the zero-valued
body (no article, no message, no validation errors, the same for every error)
and the table as before when the INSERT fails; when the transaction cannot be
begun the handler gives no response, the panic passes through it; and when no
driver call fails, 200 with the submitted article, stamped, under the id that
storage assigned, the row being stored. -/
theorem ArticleCreate_status (v : Validator) (f : Faults) (now : Int) (db : DB) :
    (∀ e, handler.ArticleCreate v (Except.error e) f now db =
      (Outcome.returned ⟨400, ⟨none, "", []⟩⟩, db)) ∧
    (∀ a err, v.validate a = some err →
      handler.ArticleCreate v (Except.ok a) f now db =
        (Outcome.returned ⟨422, ⟨none, "", v.messages a err⟩⟩, db)) ∧
    (∀ a e, v.validate a = none → f.begin = none → f.exec = some e →
      handler.ArticleCreate v (Except.ok a) f now db =
        (Outcome.returned ⟨500, ⟨none, "", []⟩⟩, db)) ∧
    (∀ a e, v.validate a = none → f.begin = some e →
      handler.ArticleCreate v (Except.ok a) f now db = (Outcome.panicked, db)) ∧
    (∀ a, v.validate a = none → f = noFaults →
      handler.ArticleCreate v (Except.ok a) f now db =
        (Outcome.returned ⟨200,
          ⟨some { a with ID := db.autoInc, Created := now, Updated := now }, "", []⟩⟩,
         ⟨db.rows ++ [{ a with ID := db.autoInc, Created := now, Updated := now }],
          db.autoInc + 1⟩)) := by
  refine ⟨fun e => rfl, ?_, ?_, ?_, ?_⟩
  · intro a err hv
    simp [handler.ArticleCreate, hv]
  · intro a e hv hb he
    simp [handler.ArticleCreate, repository.ArticleCreate, hv, hb, he]
  · intro a e hv hb
    simp [handler.ArticleCreate, repository.ArticleCreate, hv, hb]
  · intro a hv hf
    subst hf
    simp [handler.ArticleCreate, repository.ArticleCreate, hv, noFaults, insertRow]

/-- The witness of C7: a valid article on the empty table, no driver failure:
200 and the article under id 1, stamped with the instant of the call. -/
theorem ArticleCreate_status_witness :
    specValidator.validate (mkArticle 0 "Hello" "World") = none ∧
    handler.ArticleCreate specValidator (Except.ok (mkArticle 0 "Hello" "World")) noFaults 7
      emptyDB =
      (Outcome.returned ⟨200, ⟨some ⟨1, "Hello", "World", 7, 7⟩, "", []⟩⟩,
        ⟨[⟨1, "Hello", "World", 7, 7⟩], 2⟩) :=
  ⟨by decide,
    (ArticleCreate_status specValidator noFaults 7 emptyDB).2.2.2.2 (mkArticle 0 "Hello" "World")
      (by decide) rfl⟩

/-- The counterexample of C7: storage failing at the begin of the
transaction; the handler does not answer 500 with the zero-valued body, it
panics with the repository call. -/
theorem ArticleCreate_handler_begin_failure_panics :
    handler.ArticleCreate specValidator (Except.ok (mkArticle 0 "Hello" "World"))
        ⟨some "bad connection", none, none⟩ 7 emptyDB = (Outcome.panicked, emptyDB) ∧
    ¬ ∃ body,
      (handler.ArticleCreate specValidator (Except.ok (mkArticle 0 "Hello" "World"))
        ⟨some "bad connection", none, none⟩ 7 emptyDB).1 = Outcome.returned ⟨500, body⟩ := by
  have h : handler.ArticleCreate specValidator (Except.ok (mkArticle 0 "Hello" "World"))
      ⟨some "bad connection", none, none⟩ 7 emptyDB = (Outcome.panicked, emptyDB) := by
    decide
  refine ⟨h, ?_⟩
  rintro ⟨body, hb⟩
  rw [h] at hb
  exact Outcome.noConfusion hb

/-- A failed commit under the `ArticleCreate` handler: the answer is 200 with
the article under id 4, although the table has not gained the row. -/
theorem ArticleCreate_handler_commit_failure_answers_200 :
    handler.ArticleCreate specValidator (Except.ok (mkArticle 0 "d" "w"))
        ⟨none, none, some "connection lost"⟩ 7 threeDB =
      (Outcome.returned ⟨200, ⟨some ⟨4, "d", "w", 7, 7⟩, "", []⟩⟩, threeDB) := by
  decide

/-! ## C8 -/

/-- C8: when the bound article fails validation, the `ArticleCreate` handler
answers 422 with the messages of the validation failure, whatever the driver
would have done, and the table is as before; the table differs after a
request only when binding and validation both succeeded. -/
theorem ArticleCreate_validation_guards_storage (v : Validator)
    (bound : Except GoError Article) (f : Faults) (now : Int) (db : DB) :
    (∀ a err, bound = Except.ok a → v.validate a = some err →
      handler.ArticleCreate v bound f now db =
        (Outcome.returned ⟨422, ⟨none, "", v.messages a err⟩⟩, db)) ∧
    ((handler.ArticleCreate v bound f now db).2 ≠ db →
      ∃ a, bound = Except.ok a ∧ v.validate a = none) := by
  constructor
  · intro a err hb hv
    subst hb
    simp [handler.ArticleCreate, hv]
  · intro hne
    cases bound with
    | error e => exact absurd rfl hne
    | ok a =>
      cases hv : v.validate a with
      | none => exact ⟨a, rfl, hv⟩
      | some err =>
        exfalso
        apply hne
        simp [handler.ArticleCreate, hv]

/-- The witness of C8: an article with an empty title, under the validator of
the spec, with a driver that would fail: 422, the title listed, the table as
before. -/
theorem ArticleCreate_validation_guards_storage_witness :
    specValidator.validate (mkArticle 0 "" "World") = some "validation failed" ∧
    handler.ArticleCreate specValidator (Except.ok (mkArticle 0 "" "World"))
        ⟨some "bad connection", none, none⟩ 7 threeDB =
      (Outcome.returned ⟨422, ⟨none, "", ["Title"]⟩⟩, threeDB) :=
  ⟨by decide,
    (ArticleCreate_validation_guards_storage specValidator
      (Except.ok (mkArticle 0 "" "World")) ⟨some "bad connection", none, none⟩ 7 threeDB).1
      (mkArticle 0 "" "World") "validation failed" rfl (by decide)⟩

/-! ## C9 -/

theorem ParseInt_error_value (s : List Nat) :
    ((ParseInt s).2 = some NumError.ErrSyntax → (ParseInt s).1 = 0) ∧
    ((ParseInt s).2 = some NumError.ErrRange →
      (ParseInt s).1 = 9223372036854775807 ∨ (ParseInt s).1 = -9223372036854775808) := by
  unfold ParseInt
  by_cases hs : s = []
  · simp [hs]
  · simp only [hs, if_false]
    split
    · simp
    · split_ifs <;> simp

theorem Atoi_error_value (s : String) :
    ((Atoi s).2 = some NumError.ErrSyntax → (Atoi s).1 = 0) ∧
    ((Atoi s).2 = some NumError.ErrRange →
      (Atoi s).1 = 9223372036854775807 ∨ (Atoi s).1 = -9223372036854775808) := by
  unfold Atoi
  simp only []
  split_ifs
  all_goals first
    | exact ParseInt_error_value _
    | (split <;> simp)
    | simp

/-- A range error of `ParseInt` comes with `math.MinInt64` when the string
starts with a minus sign, and with `math.MaxInt64` otherwise. -/
theorem ParseInt_range_sign (s : List Nat) (h : (ParseInt s).2 = some NumError.ErrRange) :
    (s.head? = some 45 → (ParseInt s).1 = -9223372036854775808) ∧
    (s.head? ≠ some 45 → (ParseInt s).1 = 9223372036854775807) := by
  unfold ParseInt at h ⊢
  by_cases hs : s = []
  · simp [hs] at h
  · simp only [hs, if_false] at h ⊢
    by_cases hneg : s.head? = some 45
    · simp only [hneg, decide_True] at h ⊢
      split at h
      · simp at h
      · split_ifs at h ⊢ <;> simp_all
    · simp only [hneg, decide_False] at h ⊢
      split at h
      · simp at h
      · split_ifs at h ⊢ <;> simp_all

/-- A range error of `Atoi` comes with `math.MinInt64` when the string starts
with a minus sign, and with `math.MaxInt64` otherwise. -/
theorem Atoi_range_sign (s : String) (h : (Atoi s).2 = some NumError.ErrRange) :
    ((goBytes s).head? = some 45 → (Atoi s).1 = -9223372036854775808) ∧
    ((goBytes s).head? ≠ some 45 → (Atoi s).1 = 9223372036854775807) := by
  unfold Atoi at h ⊢
  simp only [] at h ⊢
  by_cases hfast : 0 < (goBytes s).length ∧ (goBytes s).length < 19
  · exfalso
    simp only [hfast, and_self, if_true] at h
    split_ifs at h
    all_goals first
      | (split at h <;> simp at h)
      | simp at h
  · simp only [hfast, if_false] at h ⊢
    exact ParseInt_range_sign _ h

theorem ArticleList_of_nonpositive_cursor (p : Option String) (fault : Option GoError)
    (db : DB) (h : handler.listCursor p ≤ 0) :
    handler.ArticleList p fault db = handler.ArticleList (some "0") fault db := by
  have h0 : handler.listCursor (some "0") = 0 := by decide
  unfold handler.ArticleList
  rw [ArticleListByCursor_nonpositive fault db _ h, h0,
    ArticleListByCursor_nonpositive fault db 0 (le_refl 0)]

/-- C9 (amended): when parsing the cursor parameter fails with a syntax error,
the cursor passed to the repository is 0 and the response is that of cursor 0;
an absent or empty parameter is such a case. When parsing fails with a range
error, the cursor passed is `math.MinInt64` for a parameter that starts with a
minus sign, and the response is that of cursor 0, and it is `math.MaxInt64`
for every other parameter, and the response is that of cursor
9223372036854775807. -/
theorem ArticleList_cursor_on_parse_failure (cursorParam : Option String)
    (fault : Option GoError) (db : DB) :
    ((Atoi (cursorParam.getD "")).2 = some NumError.ErrSyntax →
      handler.listCursor cursorParam = 0 ∧
      handler.ArticleList cursorParam fault db = handler.ArticleList (some "0") fault db) ∧
    ((Atoi (cursorParam.getD "")).2 = some NumError.ErrRange →
      (goBytes (cursorParam.getD "")).head? = some 45 →
      handler.listCursor cursorParam = -9223372036854775808 ∧
      handler.ArticleList cursorParam fault db = handler.ArticleList (some "0") fault db) ∧
    ((Atoi (cursorParam.getD "")).2 = some NumError.ErrRange →
      (goBytes (cursorParam.getD "")).head? ≠ some 45 →
      handler.listCursor cursorParam = 9223372036854775807 ∧
      handler.ArticleList cursorParam fault db =
        handler.ArticleList (some "9223372036854775807") fault db) ∧
    ((Atoi ((none : Option String).getD "")).2 = some NumError.ErrSyntax ∧
      (Atoi "").2 = some NumError.ErrSyntax) := by
  refine ⟨?_, ?_, ?_, by decide, by decide⟩
  · intro h
    have h0 : handler.listCursor cursorParam = 0 := (Atoi_error_value _).1 h
    exact ⟨h0, ArticleList_of_nonpositive_cursor _ _ _ (le_of_eq h0)⟩
  · intro h hneg
    have h1 : handler.listCursor cursorParam = -9223372036854775808 :=
      (Atoi_range_sign _ h).1 hneg
    refine ⟨h1, ArticleList_of_nonpositive_cursor _ _ _ ?_⟩
    rw [h1]
    decide
  · intro h hpos
    have h1 : handler.listCursor cursorParam = 9223372036854775807 :=
      (Atoi_range_sign _ h).2 hpos
    have h2 : handler.listCursor (some "9223372036854775807") = 9223372036854775807 := by
      decide
    refine ⟨h1, ?_⟩
    unfold handler.ArticleList
    rw [h1, h2]

/-- The witness of C9: the parameter `abc` is a syntax error and is served as
cursor 0; the parameter `-9223372036854775809` is a range error, passed on as
`math.MinInt64` and served as cursor 0. -/
theorem ArticleList_cursor_on_parse_failure_witness :
    ((Atoi ((some "abc" : Option String).getD "")).2 = some NumError.ErrSyntax ∧
      handler.listCursor (some "abc") = 0 ∧
      handler.ArticleList (some "abc") none threeDB =
        handler.ArticleList (some "0") none threeDB) ∧
    ((Atoi ((some "-9223372036854775809" : Option String).getD "")).2 =
        some NumError.ErrRange ∧
      (goBytes ((some "-9223372036854775809" : Option String).getD "")).head? = some 45 ∧
      handler.listCursor (some "-9223372036854775809") = -9223372036854775808 ∧
      handler.ArticleList (some "-9223372036854775809") none threeDB =
        handler.ArticleList (some "0") none threeDB) :=
  ⟨⟨by decide,
    (ArticleList_cursor_on_parse_failure (some "abc") none threeDB).1 (by decide)⟩,
   ⟨by decide, by decide,
    (ArticleList_cursor_on_parse_failure (some "-9223372036854775809") none threeDB).2.1
      (by decide) (by decide)⟩⟩

/-- The counterexample of C9: the digit string `9223372036854775808` does not
fit a 64-bit `int`; parsing fails with a range error, the cursor passed to the
repository is `math.MaxInt64`, not 0, and over the table holding the ID
`math.MaxInt32` the response differs from the one for cursor 0. -/
theorem ArticleList_overflow_cursor_not_zero :
    (Atoi "9223372036854775808").2 = some NumError.ErrRange ∧
    handler.listCursor (some "9223372036854775808") = 9223372036854775807 ∧
    handler.ArticleList (some "9223372036854775808") none maxDB =
      ⟨200, ListBody.articles [mkArticle 2147483647 "a" "x"]⟩ ∧
    handler.ArticleList (some "0") none maxDB = ⟨200, ListBody.articles []⟩ := by
  refine ⟨by decide, by decide, by decide, by decide⟩

/-! ## C10 -/

theorem reachable_created_eq_updated {db : DB} (h : Reachable db) :
    ∀ r ∈ db.rows, r.Created = r.Updated := by
  induction h with
  | empty => intro r hr; simp [emptyDB] at hr
  | create f now a _ ih =>
    rcases ArticleCreate_table f now a _ with h | h
    · rw [h]; exact ih
    · rw [h]
      intro r hr
      rcases List.mem_append.1 hr with h1 | h1
      · exact ih r h1
      · rw [List.mem_singleton.1 h1]
  | delete f id _ ih =>
    rcases ArticleDelete_table f id _ with h | h
    · rw [h]; exact ih
    · rw [h]
      intro r hr
      exact ih r (List.mem_of_mem_filter hr)

/-- C10: when no driver call fails, `ArticleCreate` returns with a nil error
and the table gains exactly one row, which carries the input's Title and Body
and has Created and Updated both equal to the "now" of the call; whatever the
driver does, the table is as before or has gained that row; and in every
table reached from the empty table by calls of `ArticleCreate` and
`ArticleDelete`, every row has `Created <= Updated`. -/
theorem ArticleCreate_timestamps :
    (∀ (now : Int) (a : Article) (db : DB), ∃ row,
      repository.ArticleCreate noFaults now a db =
        (Outcome.returned
          ({ a with Created := now, Updated := now }, some ⟨db.autoInc, 1⟩, none),
         ⟨db.rows ++ [row], db.autoInc + 1⟩) ∧
      row.Title = a.Title ∧ row.Body = a.Body ∧ row.Created = now ∧ row.Updated = now ∧
      row.ID = db.autoInc) ∧
    (∀ (f : Faults) (now : Int) (a : Article) (db : DB),
      (repository.ArticleCreate f now a db).2 = db ∨
      ∃ row, (repository.ArticleCreate f now a db).2 = ⟨db.rows ++ [row], db.autoInc + 1⟩ ∧
        row.Title = a.Title ∧ row.Body = a.Body ∧ row.Created = now ∧ row.Updated = now) ∧
    (∀ db : DB, Reachable db → ∀ r ∈ db.rows, r.Created ≤ r.Updated) := by
  refine ⟨?_, ?_, ?_⟩
  · intro now a db
    exact ⟨{ a with ID := db.autoInc, Created := now, Updated := now }, rfl, rfl, rfl, rfl,
      rfl, rfl⟩
  · intro f now a db
    rcases ArticleCreate_table f now a db with h | h
    · exact Or.inl h
    · exact Or.inr ⟨_, h, rfl, rfl, rfl, rfl⟩
  · intro db h r hr
    exact le_of_eq (reachable_created_eq_updated h r hr)

/-- The witness of C10: the table after one create and one delete of another
id is reachable, and its row has `Created <= Updated`. -/
theorem ArticleCreate_timestamps_witness :
    Reachable (repository.ArticleDelete noFaults 9
      (repository.ArticleCreate noFaults 7 (mkArticle 0 "Hello" "World") emptyDB).2).2 ∧
    ∀ r ∈ (repository.ArticleDelete noFaults 9
      (repository.ArticleCreate noFaults 7 (mkArticle 0 "Hello" "World") emptyDB).2).2.rows,
      r.Created ≤ r.Updated :=
  ⟨Reachable.delete _ _ (Reachable.create _ _ _ Reachable.empty),
    ArticleCreate_timestamps.2.2 _
      (Reachable.delete _ _ (Reachable.create _ _ _ Reachable.empty))⟩

end GoBlog
